import Mathlib

/-!
Shallow embedding of the devbao Node lifecycle manager.

The embedding follows `pkg/bao/node.go`. The collaborating types that
node.go uses but whose declarations live outside the provided sources
(`NodeConfig`'s own methods, `ExecEnvironment`, `DevConfig`, the
`Listener`/`Storage` variant sets and the process/filesystem collaborators)
are modelled from the specification; each such definition carries a doc
comment starting with "Modelled from the spec:". All filesystem and process
effects are made explicit through a `World` record of effect outcomes and
returned write artifacts, so every operation is a pure function.
-/

deriving instance DecidableEq for Except

/-- Modelled from the spec: a Listener configuration variant — one
network-reachable endpoint (address, TLS settings) the server should bind.
The concrete variant set is outside node.go; per the spec it is an open
variant set modelled here as a closed tagged union. -/
inductive Listener where
  | tcp (address : String) (tls : Bool)
  | unix (path : String)
deriving DecidableEq

/-- Modelled from the spec: a Storage configuration variant — the durable
backend the server persists its data to; modelled as a closed tagged union. -/
inductive Storage where
  | file (path : String)
  | raft (path : String)
  | inmem
deriving DecidableEq

/-- Modelled from the spec: DevConfig selects an in-memory, auto-unsealed
single-node development mode; the `Token` field (used by node.go's GetToken)
optionally overrides the well-known default root token. -/
structure DevConfig where
  token : String := ""
deriving DecidableEq

/-- Modelled from the spec: NodeConfig aggregates zero-or-more Listeners
(insertion order preserved), at most one Storage, and an optional DevConfig.
Field names follow the Go struct as used by node.go. -/
structure NodeConfig where
  listeners : List Listener := []
  storage : Option Storage := none
  dev : Option DevConfig := none
deriving DecidableEq

/-- Modelled from the spec: ExecEnvironment is the resolved, ready-to-run
description of a process; `pid = 0` means "not currently running from this
handle". Field names follow node.go's uses (Args, Directory, ConnectAddress,
Pid). -/
structure ExecEnvironment where
  args : List String := []
  directory : String := ""
  connectAddress : String := ""
  pid : Nat := 0
deriving DecidableEq

/-- The Node struct of node.go: name, type, optional exec environment and
the composed configuration. -/
structure Node where
  name : String := ""
  type : String := ""
  exec : Option ExecEnvironment := none
  config : NodeConfig := {}
deriving DecidableEq

/-- Errors produced by the embedded operations. Go wraps errors with
`fmt.Errorf("...: %w", err)`; the `wrapped` constructor models that
context-plus-inner-error chain. -/
inductive BaoError where
  | invalidType (t : String)
  | missingListener
  | missingStorage
  | unknownOption (index : Nat) (descr : String)
  | unknownVariant (tag : String)
  | noListeners
  | emptyConfig (name : String)
  | ioError (op : String) (msg : String)
  | unknownExecType (t : String)
  | wrapped (context : String) (inner : BaoError)
deriving DecidableEq

/-- Modelled from the spec: NodeConfig.Validate — a non-dev configuration
must resolve to at least one listener and a storage backend; a dev
configuration needs neither. Side-effect-free. -/
def NodeConfig.validate (c : NodeConfig) : Except BaoError Unit :=
  match c.dev with
  | some _ => .ok ()
  | none =>
    if c.listeners.isEmpty then .error .missingListener
    else
      match c.storage with
      | none => .error .missingStorage
      | some _ => .ok ()

/-- Node.Validate from node.go: defaults an empty name ("dev" when no
DevConfig is present, "prod" otherwise), rejects a type outside
{"", "bao", "vault"}, then delegates to the NodeConfig validation. The Go
method mutates its receiver, so the embedding returns the result together
with the updated Node. -/
def Node.validate (n : Node) : Except BaoError Unit × Node :=
  let m :=
    if n.name = "" then
      if n.config.dev = none then { n with name := "dev" }
      else { n with name := "prod" }
    else n
  if m.type ≠ "" ∧ m.type ≠ "bao" ∧ m.type ≠ "vault" then
    (.error (.invalidType m.type), m)
  else
    (m.config.validate, m)

/-- The NodeConfigOpt open interface of node.go; `unknown` stands for any
dynamic value outside the three recognized variants (the `default` branch of
the BuildNode type switch), carrying its printed description. -/
inductive NodeConfigOpt where
  | listener (l : Listener)
  | storage (s : Storage)
  | dev (d : DevConfig)
  | unknown (descr : String)
deriving DecidableEq

/-- The option-classification loop of BuildNode: appends Listeners, replaces
the Storage and the DevConfig (last write wins), and fails at the first
unrecognized option, reporting its index. -/
def classifyOpts : Nat → NodeConfig → List NodeConfigOpt → Except BaoError NodeConfig
  | _, c, [] => .ok c
  | index, c, opt :: rest =>
    match opt with
    | .listener l => classifyOpts (index + 1) { c with listeners := c.listeners ++ [l] } rest
    | .storage s => classifyOpts (index + 1) { c with storage := some s } rest
    | .dev d => classifyOpts (index + 1) { c with dev := some d } rest
    | .unknown descr => .error (.unknownOption index descr)

/-- BuildNode from node.go: classify the options into the config slots, then
validate; the returned Node is the receiver after Validate's mutation. -/
def buildNode (name : String) (product : String) (opts : List NodeConfigOpt) :
    Except BaoError Node :=
  match classifyOpts 0 {} opts with
  | .error e => .error e
  | .ok cfg =>
    let n : Node := { name := name, type := product, config := cfg }
    match n.validate with
    | (.error e, _) => .error (.wrapped "invalid node configuration" e)
    | (.ok (), n) => .ok n

/-- Node.GetToken from node.go: dev-mode nodes yield the DevConfig's token
override when non-empty, else the well-known default "devroot"; non-dev
nodes yield the empty token. Never fails. -/
def Node.getToken (n : Node) : Except BaoError String :=
  match n.config.dev with
  | some d => if d.token ≠ "" then .ok d.token else .ok "devroot"
  | none => .ok ""

/-- Modelled from the spec: NodeConfig.GetConnectAddr — dev mode synthesizes
a fixed local address (not TLS); non-dev mode reads address and TLS flag
from the configuration's primary (first) listener, failing when there is
none. -/
def NodeConfig.getConnectAddr (c : NodeConfig) : Except BaoError (String × Bool) :=
  match c.dev with
  | some _ => .ok ("127.0.0.1:8200", false)
  | none =>
    match c.listeners with
    | [] => .error .noListeners
    | .tcp address tls :: _ => .ok (address, tls)
    | .unix path :: _ => .ok (path, false)

/-- Node.GetConnectAddr from node.go: scheme is "https" iff the resolved
listener is TLS-enabled, else "http"; the URL is scheme://address. -/
def Node.getConnectAddr (n : Node) : Except BaoError String :=
  match n.config.getConnectAddr with
  | .error e =>
    .error (.wrapped ("failed to get connection address for node " ++ n.name) e)
  | .ok (address, isTls) =>
    .ok ((if isTls then "https" else "http") ++ "://" ++ address)

/-- Node.GetEnv from node.go: builds the environment mapping (modelled as an
association list in insertion order) with the constant variable stem
"VAULT_": the connect address under VAULT_ADDR and the token under
VAULT_TOKEN. -/
def Node.getEnv (n : Node) : Except BaoError (List (String × String)) :=
  match n.getConnectAddr with
  | .error e => .error e
  | .ok address =>
    match n.getToken with
    | .error e => .error e
    | .ok token =>
      .ok [("VAULT_" ++ "ADDR", address), ("VAULT_" ++ "TOKEN", token)]

/-- The generic structural block a serialized listener/storage entry decodes
into before classification: a discriminator tag plus string fields
(the spec's "generic key-value tree" at the persistence boundary). -/
structure RawBlock where
  tag : String
  fields : List (String × String)
deriving DecidableEq

/-- Field lookup inside a raw block; absent keys read as the empty string. -/
def lookupField : List (String × String) → String → String
  | [], _ => ""
  | (k, v) :: rest, key => if k = key then v else lookupField rest key

/-- Modelled from the spec: serialization of a Listener into its generic
structural form, with a discriminator tag. -/
def encodeListener : Listener → RawBlock
  | .tcp address tls => ⟨"tcp", [("address", address), ("tls", if tls then "true" else "false")]⟩
  | .unix path => ⟨"unix", [("path", path)]⟩

/-- Modelled from the spec: classification of a raw listener block by its
discriminator; an unknown tag fails the decode. -/
def decodeListener (r : RawBlock) : Except BaoError Listener :=
  if r.tag = "tcp" then
    .ok (.tcp (lookupField r.fields "address") (lookupField r.fields "tls" == "true"))
  else if r.tag = "unix" then
    .ok (.unix (lookupField r.fields "path"))
  else
    .error (.unknownVariant r.tag)

/-- Modelled from the spec: serialization of a Storage into its generic
structural form, with a discriminator tag. -/
def encodeStorage : Storage → RawBlock
  | .file path => ⟨"file", [("path", path)]⟩
  | .raft path => ⟨"raft", [("path", path)]⟩
  | .inmem => ⟨"inmem", []⟩

/-- Modelled from the spec: classification of a raw storage block by its
discriminator; an unknown tag fails the decode. -/
def decodeStorage (r : RawBlock) : Except BaoError Storage :=
  if r.tag = "file" then .ok (.file (lookupField r.fields "path"))
  else if r.tag = "raft" then .ok (.raft (lookupField r.fields "path"))
  else if r.tag = "inmem" then .ok .inmem
  else .error (.unknownVariant r.tag)

/-- The structural form of the `config` object inside a node snapshot:
listeners and storage still generic (their concrete variant is unknown to a
static decode), the dev config and plain fields decode directly. -/
structure ConfigIface where
  listeners : List RawBlock := []
  storage : Option RawBlock := none
  dev : Option DevConfig := none
deriving DecidableEq

/-- The structural form of a whole node.json snapshot after the generic JSON
decode of LoadConfig: top-level fields plus the generic config object.
`exec = none` covers both an absent and a null exec entry. -/
structure NodeIface where
  name : String := ""
  type : String := ""
  exec : Option ExecEnvironment := none
  config : ConfigIface := {}
deriving DecidableEq

/-- Decode a list of raw listener blocks, failing at the first unknown. -/
def decodeListeners : List RawBlock → Except BaoError (List Listener)
  | [] => .ok []
  | r :: rest =>
    match decodeListener r with
    | .error e => .error e
    | .ok l =>
      match decodeListeners rest with
      | .error e => .error e
      | .ok ls => .ok (l :: ls)

/-- Modelled from the spec: NodeConfig.FromInterface — the two-phase decode
of the persisted configuration: classify each raw listener and the raw
storage block by their discriminators; the dev config decodes directly. -/
def NodeConfig.fromInterface (c : ConfigIface) : Except BaoError NodeConfig :=
  match decodeListeners c.listeners with
  | .error e => .error e
  | .ok ls =>
    match c.storage with
    | none => .ok { listeners := ls, storage := none, dev := c.dev }
    | some r =>
      match decodeStorage r with
      | .error e => .error e
      | .ok s => .ok { listeners := ls, storage := some s, dev := c.dev }

/-- Node.FromInterface from node.go: overwrite name and type from the
structural form, decode the exec record only when present (leaving the
receiver's exec untouched otherwise), then decode the configuration. -/
def Node.fromInterface (n : Node) (iface : NodeIface) : Except BaoError Node :=
  let n := { n with name := iface.name, type := iface.type }
  let n :=
    match iface.exec with
    | some e => { n with exec := some e }
    | none => n
  match NodeConfig.fromInterface iface.config with
  | .error e => .error e
  | .ok c => .ok { n with config := c }

/-- The structural form json.Marshal gives the `config` object of a Node. -/
def encodeConfig (c : NodeConfig) : ConfigIface :=
  { listeners := c.listeners.map encodeListener
    storage := c.storage.map encodeStorage
    dev := c.dev }

/-- The structural form json.Marshal gives a Node (per its json tags),
as re-read by the generic decode of LoadConfig. -/
def encodeNode (n : Node) : NodeIface :=
  { name := n.name
    type := n.type
    exec := n.exec
    config := encodeConfig n.config }

/-- Modelled from the spec: the outcomes of the filesystem and process
collaborators node.go calls into, plus the on-disk snapshot store (keyed by
node name, since each node's snapshot lives at base/name/node.json). A
`some msg` error field makes the corresponding call fail. -/
structure World where
  home : String := "/home/user"
  disk : String → Option NodeIface := fun _ => none
  signalErr : Option String := none
  cleanErr : Option String := none
  mkdirErr : Option String := none
  instanceWriteErr : Option String := none
  configWriteErr : Option String := none
  launchErr : Option String := none
  launchPid : Nat := 1

/-- NodeBaseDirectory from node.go: home ++ "/.local/share/devbao/nodes". -/
def nodeBaseDirectory (home : String) : String :=
  home ++ "/.local/share/devbao/nodes"

/-- Node.GetDirectory from node.go: the per-node private directory. -/
def Node.getDirectory (home : String) (n : Node) : String :=
  nodeBaseDirectory home ++ "/" ++ n.name

/-- Modelled from the spec: NodeConfig.AddArgs — derive the process
argument list from the configuration (product-specific flags, paths rooted
at the node directory); dev mode adds the dev flags and any root-token
override. -/
def NodeConfig.addArgs (c : NodeConfig) (directory : String) : Except BaoError (List String) :=
  match c.dev with
  | some d =>
    .ok (["server", "-dev", "-dev-listen-address=127.0.0.1:8200"] ++
         (if d.token ≠ "" then ["-dev-root-token-id=" ++ d.token] else []) ++
         ["-path=" ++ directory])
  | none => .ok ["server"]

/-- Modelled from the spec: the serialized text of one listener block of the
instance configuration. -/
def listenerBlock (l : Listener) : String :=
  match l with
  | .tcp address tls =>
    "listener \x7btcp address=" ++ address ++ " tls=" ++ (if tls then "on" else "off") ++ "\x7d\n"
  | .unix path => "listener \x7bunix path=" ++ path ++ "\x7d\n"

/-- Modelled from the spec: the serialized text of the storage block of the
instance configuration, rooted at the node directory. -/
def storageBlock (directory : String) (s : Storage) : String :=
  match s with
  | .file path => "storage \x7bfile path=" ++ directory ++ "/" ++ path ++ "\x7d\n"
  | .raft path => "storage \x7braft path=" ++ directory ++ "/" ++ path ++ "\x7d\n"
  | .inmem => "storage \x7binmem\x7d\n"

/-- Modelled from the spec: NodeConfig.ToConfig — the serialized instance
configuration body: intentionally empty for dev mode; otherwise the
concatenation of the listener blocks and the storage block. -/
def NodeConfig.toConfig (c : NodeConfig) (directory : String) : Except BaoError String :=
  match c.dev with
  | some _ => .ok ""
  | none =>
    .ok (String.join (c.listeners.map listenerBlock) ++
         (match c.storage with
          | some s => storageBlock directory s
          | none => ""))

/-- The configuration-body step of buildExec: derive the serialized body;
when derivation succeeded but produced an empty body for a non-dev node,
turn that into an error (the belt-and-suspenders consistency check of
node.go lines 155-158). -/
def configBody (c : NodeConfig) (directory : String) (name : String) : Except BaoError String :=
  match c.toConfig directory with
  | .ok cfg => if cfg = "" ∧ c.dev = none then .error (.emptyConfig name) else .ok cfg
  | .error e => .error e

/-- The instance-config persistence step of buildExec: when the body is
non-empty, write config.hcl (which may fail) and append the -config
argument; otherwise leave the arguments alone (node.go lines 163-170). -/
def instanceArgs (w : World) (args : List String) (directory : String) (cfg : String) :
    Except BaoError (List String) :=
  if cfg ≠ "" then
    match w.instanceWriteErr with
    | some msg => .error (.ioError "write config.hcl" msg)
    | none => .ok (args ++ ["-config=" ++ directory ++ "/" ++ "config.hcl"])
  else .ok args

/-- Node.buildExec from node.go: re-validate, ensure the node directory
exists, derive connect address, arguments and the serialized configuration
body (an empty body is an error for a non-dev node), persist the instance
configuration when the body is non-empty (appending the -config argument),
and only then install the ExecEnvironment on the Node. The Go method mutates
its receiver, so the embedding returns the result with the updated Node. -/
def Node.buildExec (w : World) (n : Node) : Except BaoError Unit × Node :=
  match n.validate with
  | (.error e, n) => (.error (.wrapped "failed to validate node definition" e), n)
  | (.ok (), n) =>
    match w.mkdirErr with
    | some msg => (.error (.ioError "mkdir" msg), n)
    | none =>
      match n.config.getConnectAddr with
      | .error e =>
        (.error (.wrapped ("failed to get connection address for node " ++ n.name) e), n)
      | .ok (addr, _) =>
        match n.config.addArgs (n.getDirectory w.home) with
        | .error e => (.error (.wrapped "failed to build arguments to binary" e), n)
        | .ok args =>
          match configBody n.config (n.getDirectory w.home) n.name with
          | .error e => (.error (.wrapped ("failed to build node's configuration " ++ n.name) e), n)
          | .ok cfg =>
            match instanceArgs w args (n.getDirectory w.home) cfg with
            | .error e => (.error (.wrapped "error persisting node configuration" e), n)
            | .ok args =>
              (.ok (), { n with exec := some { args := args, directory := n.getDirectory w.home,
                                               connectAddress := addr, pid := 0 } })

/-- Node.SaveConfig from node.go: validate first (failing without writing
anything), then truncate-and-rewrite the node.json snapshot. The written
snapshot is returned as data (`none` when nothing was written). -/
def Node.saveConfig (w : World) (n : Node) : Except BaoError Unit × Node × Option NodeIface :=
  match n.validate with
  | (.error e, n) => (.error (.wrapped "failed validating config prior to saving" e), n, none)
  | (.ok (), n) =>
    match w.configWriteErr with
    | some msg => (.error (.ioError "open node.json" msg), n, none)
    | none => (.ok (), n, some (encodeNode n))

/-- Node.LoadConfig from node.go: open and decode the node.json snapshot
into the generic structural form, then translate it with FromInterface. -/
def Node.loadConfig (w : World) (n : Node) : Except BaoError Unit × Node :=
  match w.disk n.name with
  | none => (.error (.ioError "open node.json" "no such file"), n)
  | some iface =>
    match n.fromInterface iface with
    | .error e => (.error (.wrapped "failed to translate config" e), n)
    | .ok n => (.ok (), n)

/-- LoadNode from node.go: start from a fresh Node carrying only the name,
read its configuration from disk, then validate. -/
def loadNode (w : World) (name : String) : Except BaoError Node :=
  let node : Node := { name := name }
  match node.loadConfig w with
  | (.error e, _) => .error (.wrapped ("failed to read node (" ++ name ++ ") configuration") e)
  | (.ok (), node) =>
    match node.validate with
    | (.error e, _) => .error (.wrapped ("invalid node (" ++ name ++ ") configuration") e)
    | (.ok (), node) => .ok node

/-- Node.Clean from node.go: recursively remove the node directory
(removing a non-existent directory is not an error, which the effect model
captures by `cleanErr = none`). -/
def Node.clean (w : World) (_ : Node) : Except BaoError Unit :=
  match w.cleanErr with
  | some msg => .error (.ioError "removeAll" msg)
  | none => .ok ()

/-- The outcome of a kill: success, an ordinary error, or the Go nil-pointer
dereference that a method call on a nil ExecEnvironment produces. -/
inductive KillResult where
  | ok
  | err (e : BaoError)
  | nilDeref
deriving DecidableEq

/-- Modelled from the spec: ExecEnvironment.Kill — the process-signaling
collaborator (absent from node.go's file) terminates the process identified
by the receiver's pid; reading the pid of a nil receiver is a nil-pointer
dereference. -/
def killExec (w : World) : Option ExecEnvironment → KillResult
  | none => .nilDeref
  | some _ =>
    match w.signalErr with
    | some msg => .err (.ioError "signal" msg)
    | none => .ok

/-- Node.Kill from node.go: with no live in-memory handle (nil Exec or pid
0), reload the node from disk and kill through the reloaded node's Exec —
without checking that Exec for nil; otherwise kill through the in-memory
handle. -/
def Node.kill (w : World) (n : Node) : KillResult :=
  match n.exec with
  | none =>
    match loadNode w n.name with
    | .error e => .err (.wrapped "error loading node from disk while killing" e)
    | .ok disk => killExec w disk.exec
  | some e =>
    if e.pid = 0 then
      match loadNode w n.name with
      | .error e => .err (.wrapped "error loading node from disk while killing" e)
      | .ok disk => killExec w disk.exec
    else killExec w (some e)

/-- The launch-dispatch switch of Resume: one of three launch strategies
selected by the node type (an unrecognized type is an error). Modelled from
the spec: the three product launchers Exec/ExecBao/ExecVault are the
external spawn collaborator, which can fail or return the new pid. -/
def launch (w : World) (t : String) : Except BaoError Nat :=
  match t with
  | "" =>
    (match w.launchErr with
     | some msg => .error (.ioError "exec" msg)
     | none => .ok w.launchPid)
  | "bao" =>
    (match w.launchErr with
     | some msg => .error (.ioError "exec bao" msg)
     | none => .ok w.launchPid)
  | "vault" =>
    (match w.launchErr with
     | some msg => .error (.ioError "exec vault" msg)
     | none => .ok w.launchPid)
  | t => .error (.unknownExecType t)

/-- Node.Resume from node.go: build the execution environment, dispatch to
the launch strategy selected by the node type (which on success assigns the
new pid), then persist the updated snapshot (returned as data). -/
def Node.resume (w : World) (n : Node) : Except BaoError Unit × Node × Option NodeIface :=
  match n.buildExec w with
  | (.error e, n) => (.error (.wrapped "failed to build execution environment" e), n, none)
  | (.ok (), n) =>
    match launch w n.type with
    | .error e => (.error e, n, none)
    | .ok pid =>
      let n := { n with exec := n.exec.map (fun (e : ExecEnvironment) => { e with pid := pid }) }
      n.saveConfig w

/-- The outcome of a Start: either the Go panic propagating out of the
best-effort Kill (a nil-pointer dereference is not an error value, so
`_ = n.Kill()` cannot discard it), or a normal completion. -/
inductive StartOutcome where
  | panic
  | done (r : Except BaoError Unit × Node × Option NodeIface)
deriving DecidableEq

/-- Node.Start from node.go: best-effort Kill whose returned error is
discarded — though a nil-pointer dereference inside Kill is a panic that
propagates, crashing Start — then Clean (whose failure aborts), then
Resume. -/
def Node.start (w : World) (n : Node) : StartOutcome :=
  match n.kill w with
  | .nilDeref => .panic
  | _ =>
    match n.clean w with
    | .error e => .done (.error (.wrapped "failed to clean up existing node" e), n, none)
    | .ok () => .done (n.resume w)

/-- The node produced by Build("", "", [DevConfig{}]). -/
def devDefaultNode : Node :=
  { name := "prod", type := "", exec := none,
    config := { listeners := [], storage := none, dev := some { token := "" } } }

/-- Modelled from the spec's words for comparison (§6: "an address variable
and a token variable, using the product's conventional variable-name
prefix"): the conventional environment-variable stem of each product —
OpenBao clients conventionally use BAO_-named variables, HashiCorp Vault
clients VAULT_-named ones. -/
def conventionalEnvStem : String → String
  | "bao" => "BAO_"
  | _ => "VAULT_"

/-- A dev-mode node of product type "bao". -/
def baoDevNode : Node :=
  { name := "b", type := "bao", exec := none,
    config := { listeners := [], storage := none, dev := some { token := "" } } }

/-- Whether an option is one of the three recognized variants. -/
def NodeConfigOpt.isKnown : NodeConfigOpt → Bool
  | .unknown _ => false
  | _ => true

/-- The Listener carried by an option, if any. -/
def optListener : NodeConfigOpt → Option Listener
  | .listener l => some l
  | _ => none

/-- The Storage carried by an option, if any. -/
def optStorage : NodeConfigOpt → Option Storage
  | .storage s => some s
  | _ => none

/-- The DevConfig carried by an option, if any. -/
def optDev : NodeConfigOpt → Option DevConfig
  | .dev d => some d
  | _ => none

/-- Last-write-wins accumulation: the last element of the list, or the
initial value when the list is empty. -/
def lastOr {α : Type} : Option α → List α → Option α
  | init, [] => init
  | _, x :: rest => lastOr (some x) rest

/-- A valid non-dev node with two listeners, a storage backend and a live
exec record. -/
def roundNode : Node :=
  { name := "n1", type := "bao",
    exec := some { args := ["server"], directory := "d", connectAddress := "a", pid := 5 },
    config := { listeners := [.tcp "127.0.0.1:8200" false, .tcp "127.0.0.1:8210" true],
                storage := some (.raft "r"), dev := none } }

/-- A world whose disk holds exactly roundNode's snapshot. -/
def roundWorld : World :=
  { disk := fun nm => if nm = "n1" then some (encodeNode roundNode) else none }

/-- A world whose disk holds, under the name "prod", a valid snapshot with
no exec record. -/
def nilExecWorld : World :=
  { disk := fun nm => if nm = "prod" then some (encodeNode devDefaultNode) else none }

/-!
Helper lemmas about Validate.
-/

/-- The Node returned by Validate: only an empty name is rewritten. -/
lemma validate_snd (n : Node) :
    (n.validate).2 =
      if n.name = "" then
        (if n.config.dev = none then { n with name := "dev" } else { n with name := "prod" })
      else n := by
  unfold Node.validate
  by_cases h1 : n.name = "" <;> by_cases h2 : n.config.dev = none <;>
    simp [h1, h2] <;> split <;> rfl

/-- The result of Validate: the type check followed by the config check,
unaffected by the name rewrite. -/
lemma validate_fst (n : Node) :
    (n.validate).1 =
      if n.type ≠ "" ∧ n.type ≠ "bao" ∧ n.type ≠ "vault" then
        .error (.invalidType n.type)
      else n.config.validate := by
  unfold Node.validate
  by_cases h1 : n.name = "" <;> by_cases h2 : n.config.dev = none <;>
    simp [h1, h2] <;> split <;> rfl

/-- Validate never changes the type. -/
lemma validate_type (n : Node) : ((n.validate).2).type = n.type := by
  rw [validate_snd]; split <;> [skip; rfl]; split <;> rfl

/-- Validate never changes the config. -/
lemma validate_config (n : Node) : ((n.validate).2).config = n.config := by
  rw [validate_snd]; split <;> [skip; rfl]; split <;> rfl

/-- Validate never changes the exec environment. -/
lemma validate_exec (n : Node) : ((n.validate).2).exec = n.exec := by
  rw [validate_snd]; split <;> [skip; rfl]; split <;> rfl

/-- The name Validate leaves behind is never empty. -/
lemma validate_name_ne (n : Node) : ((n.validate).2).name ≠ "" := by
  rw [validate_snd]
  by_cases h1 : n.name = "" <;> simp [h1]
  split <;> simp

/-- Validate of an already-validated Node is a fixed point with the same
result: the second run sees a non-empty name and identical type and config. -/
lemma validate_validate (n : Node) : ((n.validate).2).validate = n.validate := by
  refine Prod.ext ?_ ?_
  · rw [validate_fst, validate_fst, validate_type, validate_config]
  · rw [validate_snd ((n.validate).2)]
    simp [validate_name_ne n]

/-- Claim C1 (counterexample): Build(name="", type="", [DevConfig{}])
succeeds, but the node's name becomes "prod", not "dev" as the claim
states — the code defaults an empty name to "dev" only when no DevConfig is
present. -/
theorem buildNode_dev_scenario_cex :
    buildNode "" "" [NodeConfigOpt.dev {}] = .ok devDefaultNode
    ∧ devDefaultNode.name ≠ "dev" := by
  decide

/-- Claim C1 (amended): for Build(name="", type="", [DevConfig{}]), Validate
succeeds, the node's name becomes "prod", and GetToken returns "devroot"
(no token override in the DevConfig). -/
theorem buildNode_dev_scenario :
    buildNode "" "" [NodeConfigOpt.dev {}] = .ok devDefaultNode
    ∧ devDefaultNode.validate = (.ok (), devDefaultNode)
    ∧ devDefaultNode.name = "prod"
    ∧ devDefaultNode.getToken = .ok "devroot" := by
  decide

/-- Claim C2: for every Node with an empty name, Validate defaults the name
to "dev" when no DevConfig is present and to "prod" when one is present
(and leaves a non-empty name alone); and Validate returns an error for
every type outside {"", "bao", "vault"}. -/
theorem validate_name_default_and_type_check (n : Node) :
    ((n.validate).2.name =
      if n.name = "" then (if n.config.dev = none then "dev" else "prod") else n.name)
    ∧ ((n.type = "" ∨ n.type = "bao" ∨ n.type = "vault")
        ∨ (n.validate).1 = .error (.invalidType n.type)) := by
  constructor
  · rw [validate_snd]
    by_cases h1 : n.name = "" <;> by_cases h2 : n.config.dev = none <;> simp [h1, h2]
  · by_cases h : n.type = "" ∨ n.type = "bao" ∨ n.type = "vault"
    · exact Or.inl h
    · right
      push_neg at h
      rw [validate_fst]
      simp [h.1, h.2.1, h.2.2]

/-- Claim C7: Validate is idempotent: running it on the Node a first run
returned yields the same result and the same Node, so a second call returns
exactly what the first did and does not alter an already-validated Node. -/
theorem validate_idempotent (n : Node) : ((n.validate).2).validate = n.validate :=
  validate_validate n

/-- Claim C8 (counterexample): for a node of type "bao", GetEnv names its
variables VAULT_ADDR and VAULT_TOKEN — not with the stem conventional to
the node's product type as selected by the type field ("BAO_" for OpenBao):
the prefix is a constant, never selected by type. -/
theorem getEnv_stem_cex :
    baoDevNode.getEnv =
      .ok [("VAULT_ADDR", "http://127.0.0.1:8200"), ("VAULT_TOKEN", "devroot")]
    ∧ "VAULT_ADDR" ≠ conventionalEnvStem baoDevNode.type ++ "ADDR"
    ∧ "VAULT_TOKEN" ≠ conventionalEnvStem baoDevNode.type ++ "TOKEN" := by
  decide

/-- Claim C8 (amended): for every Node, GetEnv (when it succeeds) returns a
mapping holding exactly an address variable and a token variable, under the
fixed names VAULT_ADDR and VAULT_TOKEN — the "VAULT_" stem is used
regardless of the node's type field — bound to the connect URL and the
token. -/
theorem getEnv_fixed_vault_vars (n : Node) (m : List (String × String))
    (h : n.getEnv = .ok m) :
    m.map Prod.fst = ["VAULT_ADDR", "VAULT_TOKEN"]
    ∧ ∃ address token, n.getConnectAddr = .ok address ∧ n.getToken = .ok token
        ∧ m = [("VAULT_ADDR", address), ("VAULT_TOKEN", token)] := by
  unfold Node.getEnv at h
  cases ha : n.getConnectAddr with
  | error e => rw [ha] at h; cases h
  | ok address =>
    rw [ha] at h
    cases ht : n.getToken with
    | error e => rw [ht] at h; cases h
    | ok token =>
      rw [ht] at h
      cases h
      refine ⟨by simp, address, token, rfl, rfl, by simp⟩

/-- Witness for the amended C8 theorem at a concrete node. -/
theorem getEnv_fixed_vault_vars_witness :
    baoDevNode.getEnv =
      .ok [("VAULT_ADDR", "http://127.0.0.1:8200"), ("VAULT_TOKEN", "devroot")]
    ∧ ([("VAULT_ADDR", "http://127.0.0.1:8200"),
        ("VAULT_TOKEN", "devroot")].map Prod.fst = ["VAULT_ADDR", "VAULT_TOKEN"]) := by
  have h : baoDevNode.getEnv =
      .ok [("VAULT_ADDR", "http://127.0.0.1:8200"), ("VAULT_TOKEN", "devroot")] := by decide
  exact ⟨h, (getEnv_fixed_vault_vars baoDevNode _ h).1⟩

/-- Claim C3: Start performs the best-effort Kill first, and Kill's
returned error is swallowed: whenever Kill does not panic, Start's result
ignores Kill's outcome entirely and is Clean — whose failure aborts Start
with an error — followed by Resume, whose result Start returns. A
nil-dereference panic inside Kill, by contrast, is not an error value and
propagates, crashing Start. -/
theorem start_swallows_kill_failure (w : World) (n : Node) :
    (n.kill w ≠ KillResult.nilDeref →
       n.start w =
         .done (match w.cleanErr with
                | some msg =>
                  (.error (.wrapped "failed to clean up existing node"
                     (.ioError "removeAll" msg)), n, none)
                | none => n.resume w))
    ∧ (n.kill w = KillResult.nilDeref → n.start w = .panic) := by
  constructor
  · intro hk
    unfold Node.start Node.clean
    cases hkr : n.kill w with
    | nilDeref => exact absurd hkr hk
    | ok => cases hc : w.cleanErr <;> simp
    | err e => cases hc : w.cleanErr <;> simp
  · intro hk
    unfold Node.start
    rw [hk]

/-- Witness for the C3 theorem: a node whose Kill fails with an ordinary
error still proceeds to Clean and Resume, while a node whose Kill
nil-dereferences crashes Start. -/
theorem start_swallows_kill_failure_witness :
    Node.start {} devDefaultNode = StartOutcome.done (Node.resume {} devDefaultNode)
    ∧ Node.start nilExecWorld { name := "prod" } = StartOutcome.panic := by
  constructor
  · exact (start_swallows_kill_failure {} devDefaultNode).1 (by decide)
  · exact (start_swallows_kill_failure nilExecWorld { name := "prod" }).2 (by decide)

/-- The classification loop fails at the first unrecognized option,
reporting its absolute index. -/
lemma classifyOpts_first_unknown (pre : List NodeConfigOpt) :
    ∀ (index : Nat) (c : NodeConfig) (d : String) (rest : List NodeConfigOpt),
      (∀ o ∈ pre, o.isKnown = true) →
      classifyOpts index c (pre ++ NodeConfigOpt.unknown d :: rest) =
        .error (.unknownOption (index + pre.length) d) := by
  induction pre with
  | nil => intro index c d rest _; simp [classifyOpts]
  | cons opt pre ih =>
    intro index c d rest h
    have hopt : opt.isKnown = true := h opt (by simp)
    have hrest : ∀ o ∈ pre, o.isKnown = true := fun o ho => h o (by simp [ho])
    have harith : index + 1 + pre.length = index + (opt :: pre).length := by
      simp [List.length_cons]; omega
    cases opt with
    | listener l =>
      simp only [List.cons_append, classifyOpts, List.append_eq]
      rw [ih (index + 1) _ d rest hrest, harith]
    | storage s =>
      simp only [List.cons_append, classifyOpts, List.append_eq]
      rw [ih (index + 1) _ d rest hrest, harith]
    | dev dd =>
      simp only [List.cons_append, classifyOpts, List.append_eq]
      rw [ih (index + 1) _ d rest hrest, harith]
    | unknown descr => simp [NodeConfigOpt.isKnown] at hopt

/-- A successful classification appends listeners in order and keeps the
last storage and the last dev config (relative to the accumulator). -/
lemma classifyOpts_ok (opts : List NodeConfigOpt) :
    ∀ (index : Nat) (c cfg : NodeConfig), classifyOpts index c opts = .ok cfg →
      cfg.listeners = c.listeners ++ opts.filterMap optListener
      ∧ cfg.storage = lastOr c.storage (opts.filterMap optStorage)
      ∧ cfg.dev = lastOr c.dev (opts.filterMap optDev) := by
  induction opts with
  | nil =>
    intro index c cfg h
    simp only [classifyOpts, Except.ok.injEq] at h
    subst h
    simp [lastOr]
  | cons opt rest ih =>
    intro index c cfg h
    cases opt with
    | listener l =>
      simp only [classifyOpts] at h
      obtain ⟨h1, h2, h3⟩ := ih _ _ _ h
      refine ⟨?_, ?_, ?_⟩ <;>
        simp [optListener, optStorage, optDev, List.filterMap_cons, h1, h2, h3, lastOr]
    | storage s =>
      simp only [classifyOpts] at h
      obtain ⟨h1, h2, h3⟩ := ih _ _ _ h
      refine ⟨?_, ?_, ?_⟩ <;>
        simp [optListener, optStorage, optDev, List.filterMap_cons, h1, h2, h3, lastOr]
    | dev d =>
      simp only [classifyOpts] at h
      obtain ⟨h1, h2, h3⟩ := ih _ _ _ h
      refine ⟨?_, ?_, ?_⟩ <;>
        simp [optListener, optStorage, optDev, List.filterMap_cons, h1, h2, h3, lastOr]
    | unknown descr => simp [classifyOpts] at h

/-- Claim C6: Build fails at an unrecognized option, reporting its index i
(for every sequence whose first unrecognized option sits at position i);
and whenever Build returns a node, its configuration holds the Listener
options appended in order, the last Storage option, and the last DevConfig
option (last write wins). -/
theorem buildNode_option_classification (name product : String) :
    (∀ (pre : List NodeConfigOpt) (d : String) (rest : List NodeConfigOpt),
       (∀ o ∈ pre, o.isKnown = true) →
       buildNode name product (pre ++ NodeConfigOpt.unknown d :: rest) =
         .error (.unknownOption pre.length d))
    ∧ (∀ (opts : List NodeConfigOpt) (n : Node), buildNode name product opts = .ok n →
        n.config.listeners = opts.filterMap optListener
        ∧ n.config.storage = lastOr none (opts.filterMap optStorage)
        ∧ n.config.dev = lastOr none (opts.filterMap optDev)) := by
  constructor
  · intro pre d rest h
    unfold buildNode
    rw [classifyOpts_first_unknown pre 0 _ d rest h]
    simp
  · intro opts n h
    unfold buildNode at h
    cases hc : classifyOpts 0 {} opts with
    | error e => rw [hc] at h; cases h
    | ok cfg =>
      rw [hc] at h
      simp only [] at h
      rcases hv : Node.validate { name := name, type := product, config := cfg } with ⟨vres, n1⟩
      rw [hv] at h
      cases vres with
      | error e => cases h
      | ok u =>
        cases u
        simp only [Except.ok.injEq] at h
        have hcfg : n.config = cfg := by
          have hvc := validate_config { name := name, type := product, config := cfg }
          rw [hv] at hvc
          rw [← h]
          simpa using hvc
        obtain ⟨h1, h2, h3⟩ := classifyOpts_ok opts 0 {} cfg hc
        rw [hcfg]
        refine ⟨?_, ?_, ?_⟩ <;> simp [h1, h2, h3]

/-- Witness for the C6 theorem: an unknown option at index 1 is reported as
index 1, and a successful Build keeps listeners in order and the last
storage and dev config. -/
theorem buildNode_option_classification_witness :
    buildNode "x" ""
        ([NodeConfigOpt.listener (.tcp "a" false)] ++ NodeConfigOpt.unknown "int" :: []) =
      .error (.unknownOption 1 "int")
    ∧ (Node.config
        { name := "w", type := "", exec := none,
          config := { listeners := [.tcp "a" false], storage := some (.raft "r"),
                      dev := some { token := "" } } }).listeners =
      List.filterMap optListener
        [NodeConfigOpt.listener (.tcp "a" false), NodeConfigOpt.storage (.file "s"),
         NodeConfigOpt.storage (.raft "r"), NodeConfigOpt.dev {}] := by
  constructor
  · exact (buildNode_option_classification "x" "").1
      [NodeConfigOpt.listener (.tcp "a" false)] "int" [] (by decide)
  · exact ((buildNode_option_classification "w" "").2
      [NodeConfigOpt.listener (.tcp "a" false), NodeConfigOpt.storage (.file "s"),
       NodeConfigOpt.storage (.raft "r"), NodeConfigOpt.dev {}]
      { name := "w", type := "", exec := none,
        config := { listeners := [.tcp "a" false], storage := some (.raft "r"),
                    dev := some { token := "" } } }
      (by decide)).1

/-- buildExec either fails leaving the (re-validated) Node without a new
exec environment, or succeeds installing one. -/
lemma buildExec_cases (w : World) (n : Node) :
    (∃ e, n.buildExec w = (.error e, (n.validate).2))
    ∨ (∃ env, n.buildExec w = (.ok (), { (n.validate).2 with exec := some env })) := by
  rcases hv : n.validate with ⟨vres, n1⟩
  cases vres with
  | error e =>
    refine Or.inl ⟨.wrapped "failed to validate node definition" e, ?_⟩
    simp [Node.buildExec, hv]
  | ok u =>
    cases u
    cases hm : w.mkdirErr with
    | some msg =>
      refine Or.inl ⟨.ioError "mkdir" msg, ?_⟩
      simp [Node.buildExec, hv, hm]
    | none =>
      cases ha : n1.config.getConnectAddr with
      | error e =>
        refine Or.inl
          ⟨.wrapped ("failed to get connection address for node " ++ n1.name) e, ?_⟩
        simp [Node.buildExec, hv, hm, ha]
      | ok p =>
        rcases p with ⟨addr, tls⟩
        cases hg : n1.config.addArgs (n1.getDirectory w.home) with
        | error e =>
          refine Or.inl ⟨.wrapped "failed to build arguments to binary" e, ?_⟩
          simp [Node.buildExec, hv, hm, ha, hg]
        | ok args =>
          cases ht : configBody n1.config (n1.getDirectory w.home) n1.name with
          | error e =>
            refine Or.inl
              ⟨.wrapped ("failed to build node's configuration " ++ n1.name) e, ?_⟩
            simp [Node.buildExec, hv, hm, ha, hg, ht]
          | ok cfg =>
            cases hi : instanceArgs w args (n1.getDirectory w.home) cfg with
            | error e =>
              refine Or.inl ⟨.wrapped "error persisting node configuration" e, ?_⟩
              simp [Node.buildExec, hv, hm, ha, hg, ht, hi]
            | ok args2 =>
              refine Or.inr ⟨{ args := args2, directory := n1.getDirectory w.home,
                               connectAddress := addr, pid := 0 }, ?_⟩
              simp [Node.buildExec, hv, hm, ha, hg, ht, hi]

/-- Claim C4: when any step of buildExec fails, buildExec returns an error
and leaves the Node's Exec field exactly as it was before the call; an
ExecEnvironment is installed only when every step succeeded. -/
theorem buildExec_exec_untouched_on_error (w : World) (n : Node) :
    (∀ e, (n.buildExec w).1 = .error e → ((n.buildExec w).2).exec = n.exec)
    ∧ ((n.buildExec w).1 = .ok () → ∃ env, ((n.buildExec w).2).exec = some env) := by
  rcases buildExec_cases w n with ⟨e, he⟩ | ⟨env, he⟩
  · rw [he]
    constructor
    · intro e' _
      exact validate_exec n
    · intro h
      cases h
  · rw [he]
    constructor
    · intro e' h
      cases h
    · intro _
      exact ⟨env, rfl⟩

/-- Witness for the C4 theorem: a failing directory creation leaves Exec
nil, and with no failures an ExecEnvironment is installed. -/
theorem buildExec_exec_untouched_on_error_witness :
    ((devDefaultNode.buildExec { mkdirErr := some "denied" }).1 =
        .error (.ioError "mkdir" "denied")
      ∧ ((devDefaultNode.buildExec { mkdirErr := some "denied" }).2).exec = none)
    ∧ ((devDefaultNode.buildExec {}).1 = .ok ()
      ∧ ∃ env, ((devDefaultNode.buildExec {}).2).exec = some env) := by
  constructor
  · have h1 : (devDefaultNode.buildExec { mkdirErr := some "denied" }).1 =
        .error (.ioError "mkdir" "denied") := by decide
    exact ⟨h1, (buildExec_exec_untouched_on_error { mkdirErr := some "denied" }
      devDefaultNode).1 _ h1⟩
  · have h2 : (devDefaultNode.buildExec {}).1 = .ok () := by decide
    exact ⟨h2, (buildExec_exec_untouched_on_error {} devDefaultNode).2 h2⟩

/-- Decoding inverts encoding for a listener. -/
lemma decodeListener_encode (l : Listener) : decodeListener (encodeListener l) = .ok l := by
  cases l with
  | tcp address tls => cases tls <;> simp [encodeListener, decodeListener, lookupField]
  | unix path => simp [encodeListener, decodeListener, lookupField]

/-- Decoding inverts encoding for a storage backend. -/
lemma decodeStorage_encode (s : Storage) : decodeStorage (encodeStorage s) = .ok s := by
  cases s <;> simp [encodeStorage, decodeStorage, lookupField]

/-- Decoding inverts encoding for a listener list. -/
lemma decodeListeners_encode (ls : List Listener) :
    decodeListeners (ls.map encodeListener) = .ok ls := by
  induction ls with
  | nil => simp [decodeListeners]
  | cons l rest ih => simp [decodeListeners, decodeListener_encode, ih]

/-- The two-phase decode inverts the structural encoding of a NodeConfig. -/
lemma config_fromInterface_encode (c : NodeConfig) :
    NodeConfig.fromInterface (encodeConfig c) = .ok c := by
  rcases c with ⟨ls, st, dv⟩
  cases st with
  | none => simp [encodeConfig, NodeConfig.fromInterface, decodeListeners_encode]
  | some s =>
    simp [encodeConfig, NodeConfig.fromInterface, decodeListeners_encode, decodeStorage_encode]

/-- FromInterface inverts the snapshot encoding of a Node, starting from any
receiver with no exec handle (as LoadNode's fresh node has). -/
lemma fromInterface_encode (n0 m : Node) (h : n0.exec = none) :
    n0.fromInterface (encodeNode m) = .ok m := by
  rcases m with ⟨mname, mtype, mexec, mconfig⟩
  cases mexec with
  | none =>
    simp [Node.fromInterface, encodeNode, config_fromInterface_encode, h]
  | some e =>
    simp [Node.fromInterface, encodeNode, config_fromInterface_encode]

/-- LoadNode returns exactly the node whose snapshot is on disk, provided
that node is a Validate fixed point. -/
lemma loadNode_encode (w : World) (m : Node) (hfix : m.validate = (.ok (), m))
    (hdisk : w.disk m.name = some (encodeNode m)) : loadNode w m.name = .ok m := by
  simp only [loadNode, Node.loadConfig]
  rw [hdisk]
  simp [fromInterface_encode { name := m.name } m rfl, hfix]

/-- SaveConfig of a Node that fails Validate: the error is returned and
nothing is written. -/
lemma saveConfig_error_of_invalid (w : World) (n : Node) (e : BaoError)
    (h : (n.validate).1 = .error e) :
    n.saveConfig w =
      (.error (.wrapped "failed validating config prior to saving" e),
       (n.validate).2, none) := by
  unfold Node.saveConfig
  rcases hv : n.validate with ⟨vres, n1⟩
  rw [hv] at h
  simp only [] at h
  subst h
  simp

/-- A SaveConfig call that wrote a snapshot succeeded, wrote the encoding of
the validated node, and returned that node. -/
lemma saveConfig_some (w : World) (n : Node) (r : Except BaoError Unit) (mv : Node)
    (s : NodeIface) (h : n.saveConfig w = (r, mv, some s)) :
    r = .ok () ∧ mv = (n.validate).2 ∧ (n.validate).1 = .ok () ∧ s = encodeNode mv := by
  unfold Node.saveConfig at h
  rcases hv : n.validate with ⟨vres, n1⟩
  rw [hv] at h
  cases vres with
  | error e => simp at h
  | ok u =>
    cases u
    cases hw : w.configWriteErr with
    | some msg => rw [hw] at h; simp at h
    | none =>
      rw [hw] at h
      simp at h
      obtain ⟨hr, hmv, hs⟩ := h
      subst hr hmv
      exact ⟨rfl, rfl, rfl, hs.symm⟩

/-- Claim C5: a successful SaveConfig followed by LoadNode on the same name
(in any world whose disk holds the written snapshot at that name) yields a
Node equal to the saved one in every observable field: the snapshot
round-trips through the polymorphic decode, for any valid configuration
including multiple listeners. -/
theorem saveConfig_loadNode_roundtrip (w wr : World) (m mv : Node) (s : NodeIface)
    (hsave : m.saveConfig w = (.ok (), mv, some s))
    (hdisk : wr.disk mv.name = some s) :
    loadNode wr mv.name = .ok mv := by
  obtain ⟨_, hmv, hok, hs⟩ := saveConfig_some w m (.ok ()) mv s hsave
  have hfix : mv.validate = (.ok (), mv) := by
    rw [hmv, validate_validate m]
    exact Prod.ext hok rfl
  exact loadNode_encode wr mv hfix (by rw [hdisk, hs])

/-- Witness for the C5 theorem: the two-listener node round-trips. -/
theorem saveConfig_loadNode_roundtrip_witness :
    loadNode roundWorld "n1" = .ok roundNode := by
  exact saveConfig_loadNode_roundtrip {} roundWorld roundNode roundNode
    (encodeNode roundNode) (by decide) (by decide)

/-- A Validate success means the type was in the allowed set and the config
validated. -/
lemma validate_ok_parts (n : Node) (h : (n.validate).1 = .ok ()) :
    (n.type = "" ∨ n.type = "bao" ∨ n.type = "vault") ∧ n.config.validate = .ok () := by
  rw [validate_fst] at h
  by_cases hc : n.type ≠ "" ∧ n.type ≠ "bao" ∧ n.type ≠ "vault"
  · rw [if_pos hc] at h
    cases h
  · rw [if_neg hc] at h
    refine ⟨?_, h⟩
    by_cases h1 : n.type = ""
    · exact Or.inl h1
    · by_cases h2 : n.type = "bao"
      · exact Or.inr (Or.inl h2)
      · refine Or.inr (Or.inr ?_)
        by_contra h3
        exact hc ⟨h1, h2, h3⟩

/-- Any snapshot a SaveConfig call wrote describes a validated node:
non-empty name, allowed type, valid configuration, Validate fixed point. -/
lemma saveConfig_some_inv (w : World) (n : Node) (r : Except BaoError Unit) (mv : Node)
    (s : NodeIface) (h : n.saveConfig w = (r, mv, some s)) :
    s = encodeNode mv ∧ mv.validate = (.ok (), mv) ∧ mv.name ≠ ""
    ∧ (mv.type = "" ∨ mv.type = "bao" ∨ mv.type = "vault")
    ∧ mv.config.validate = .ok () := by
  obtain ⟨hr, hmv, hok, hs⟩ := saveConfig_some w n r mv s h
  subst hmv
  refine ⟨hs, ?_, validate_name_ne n, ?_, ?_⟩
  · rw [validate_validate n]
    exact Prod.ext hok rfl
  · rw [validate_type]
    exact (validate_ok_parts n hok).1
  · rw [validate_config]
    exact (validate_ok_parts n hok).2

/-- Claim C10: SaveConfig validates first it returns the validation error
and writes nothing for a Node failing Validate; every snapshot it does
write (and hence every snapshot Resume writes) describes a node passing
Validate: non-empty name, type in the allowed set, valid configuration. -/
theorem saveConfig_persists_only_valid (w : World) (n : Node) :
    (∀ e, (n.validate).1 = .error e →
       n.saveConfig w =
         (.error (.wrapped "failed validating config prior to saving" e),
          (n.validate).2, none))
    ∧ (∀ r mv s, n.saveConfig w = (r, mv, some s) →
        s = encodeNode mv ∧ mv.validate = (.ok (), mv) ∧ mv.name ≠ ""
        ∧ (mv.type = "" ∨ mv.type = "bao" ∨ mv.type = "vault")
        ∧ mv.config.validate = .ok ())
    ∧ (∀ r mv s, n.resume w = (r, mv, some s) →
        s = encodeNode mv ∧ mv.validate = (.ok (), mv) ∧ mv.name ≠ ""
        ∧ (mv.type = "" ∨ mv.type = "bao" ∨ mv.type = "vault")
        ∧ mv.config.validate = .ok ()) := by
  refine ⟨fun e he => saveConfig_error_of_invalid w n e he,
          fun r mv s h => saveConfig_some_inv w n r mv s h, ?_⟩
  intro r mv s h
  unfold Node.resume at h
  split at h
  · simp at h
  · split at h
    · simp at h
    · exact saveConfig_some_inv w _ r mv s h

/-- Witness for the C10 theorem: an invalid-type node is rejected with
nothing written, and a written snapshot comes from a validated node. -/
theorem saveConfig_persists_only_valid_witness :
    ({ name := "x", type := "zzz" } : Node).saveConfig {} =
      (.error (.wrapped "failed validating config prior to saving" (.invalidType "zzz")),
       { name := "x", type := "zzz" }, none)
    ∧ devDefaultNode.validate = (.ok (), devDefaultNode) := by
  constructor
  · exact (saveConfig_persists_only_valid {} { name := "x", type := "zzz" }).1
      (.invalidType "zzz") (by decide)
  · have h : devDefaultNode.saveConfig {} =
        (.ok (), devDefaultNode, some (encodeNode devDefaultNode)) := by decide
    exact ((saveConfig_persists_only_valid {} devDefaultNode).2.1 _ _ _ h).2.1

/-- Claim C9: Kill on a Node with no live in-memory handle reloads the node
from disk and calls Kill on the reloaded Exec without a nil check: whenever
the on-disk snapshot decodes (and validates) to a node with no exec record,
this path dereferences a nil ExecEnvironment instead of returning an
error. -/
theorem kill_reload_nil_exec_deref (w : World) (n m : Node)
    (hexec : n.exec = none)
    (hfix : m.validate = (.ok (), m)) (hmexec : m.exec = none)
    (hname : m.name = n.name)
    (hdisk : w.disk n.name = some (encodeNode m)) :
    n.kill w = KillResult.nilDeref := by
  have hload : loadNode w n.name = .ok m := by
    rw [← hname]
    exact loadNode_encode w m hfix (hname ▸ hdisk)
  unfold Node.kill
  rw [hexec]
  simp [hload, killExec, hmexec]

/-- Witness for the C9 theorem at a concrete node and snapshot. -/
theorem kill_reload_nil_exec_deref_witness :
    Node.kill nilExecWorld { name := "prod" } = KillResult.nilDeref := by
  exact kill_reload_nil_exec_deref nilExecWorld { name := "prod" } devDefaultNode rfl
    (by decide) rfl rfl (by decide)
